import Mathlib

/-!
Verification of the mip-core package-preparation pipeline.

This file gives a shallow embedding of the naming-convention decoder, the
symbol collectors, the manifest writers, the zip source acquirer, the
load/unload script emitter and the remote existence check of the repository,
together with theorems settling the specification claims about them.

Python strings are modelled by Lean `String`; Python filesystem directory
listings by a rose tree `FSTree`; Python dictionaries with JSON-like values by
association lists over `PyVal`.  Python `sorted` on strings is modelled by
insertion sort over the code-point order: since that order is a linear order,
every sorting algorithm produces the same (unique) sorted list, so this is
extensionally the same function as CPython's sort on the inputs in question.
-/

namespace Mip

/-! ### Python string primitives

Python slicing and affix tests operate on characters, so they are modelled on
the character list `String.data`.  The Lean core `String` comparison functions
are iterator-based and do not reduce inside the kernel, hence the explicit
code-point comparison `pyStrLtAux` below, proved equivalent to the library
order on strings. -/

/-- Python `s.endswith(suffix)`. -/
def pyEndsWith (s suf : String) : Bool := suf.data.isSuffixOf s.data

/-- Python `s.startswith(p)`. -/
def pyStartsWith (s p : String) : Bool := p.data.isPrefixOf s.data

/-- Python `s[:-n]` for `n ≥ 0`. -/
def pyDropRight (s : String) (n : Nat) : String := ⟨s.data.take (s.data.length - n)⟩

/-- Python `s[n:]` for `n ≥ 0`. -/
def pyDrop (s : String) (n : Nat) : String := ⟨s.data.drop n⟩

/-- Code-point lexicographic strict comparison of character lists, as used by
Python string `<`. -/
def pyStrLtAux : List Char → List Char → Bool
  | [], [] => false
  | [], _ :: _ => true
  | _ :: _, [] => false
  | a :: as, b :: bs =>
      if a < b then true
      else if b < a then false
      else pyStrLtAux as bs

/-- Python string `<`. -/
def pyStrLt (a b : String) : Bool := pyStrLtAux a.data b.data

/-- Python string `<=` (the total order used by `sorted`). -/
def pyStrLe (a b : String) : Bool := !(pyStrLt b a)

theorem pyStrLtAux_eq_true_iff : ∀ x y : List Char, pyStrLtAux x y = true ↔ x < y
  | [], [] => by
      constructor
      · intro h; simp [pyStrLtAux] at h
      · intro h; cases h
  | [], b :: bs => by
      constructor
      · intro _; exact List.Lex.nil
      · intro _; rfl
  | a :: as, [] => by
      constructor
      · intro h; simp [pyStrLtAux] at h
      · intro h; cases h
  | a :: as, b :: bs => by
      constructor
      · intro h
        by_cases h₁ : a < b
        · exact List.Lex.rel h₁
        · by_cases h₂ : b < a
          · simp [pyStrLtAux, h₁, h₂] at h
          · have hab : a = b := le_antisymm (not_lt.mp h₂) (not_lt.mp h₁)
            have h₃ : pyStrLtAux as bs = true := by simpa [pyStrLtAux, h₁, h₂] using h
            subst hab
            exact List.Lex.cons ((pyStrLtAux_eq_true_iff as bs).mp h₃)
      · intro h
        cases h with
        | rel hab => simp [pyStrLtAux, hab]
        | cons htl =>
            simp [pyStrLtAux, lt_irrefl]
            exact (pyStrLtAux_eq_true_iff as bs).mpr htl

theorem pyStrLt_eq_true_iff (a b : String) : pyStrLt a b = true ↔ a < b := by
  rw [String.lt_iff_toList_lt]
  exact pyStrLtAux_eq_true_iff a.data b.data

theorem pyStrLe_eq_true_iff (a b : String) : pyStrLe a b = true ↔ a ≤ b := by
  rw [pyStrLe, Bool.not_eq_true', ← not_lt, ← pyStrLt_eq_true_iff b a]
  simp

/-- The order relation used to model Python `sorted` on strings. -/
def PyLe (a b : String) : Prop := pyStrLe a b = true

instance : DecidableRel PyLe := fun _ _ => inferInstanceAs (Decidable (_ = true))

theorem pyLe_iff (a b : String) : PyLe a b ↔ a ≤ b := pyStrLe_eq_true_iff a b

instance : IsTotal String PyLe :=
  ⟨fun a b => by rw [pyLe_iff, pyLe_iff]; exact le_total a b⟩

instance : IsTrans String PyLe :=
  ⟨fun a b c h₁ h₂ => by
    rw [pyLe_iff] at h₁ h₂ ⊢
    exact le_trans h₁ h₂⟩

/-- Python `sorted` on a list of strings. -/
def sortStrings (l : List String) : List String := List.insertionSort PyLe l

theorem sortStrings_perm (l : List String) : List.Perm (sortStrings l) l :=
  List.perm_insertionSort PyLe l

theorem sortStrings_sorted (l : List String) : List.Sorted (· ≤ ·) (sortStrings l) :=
  (List.sorted_insertionSort PyLe l).imp (fun h => (pyLe_iff _ _).mp h)

/-! ### Filesystem model

A directory listing is a list of named entries; an entry is either a file or a
directory with its own listing.  `Option` at the root encodes
`os.path.exists`: `none` is a path that does not exist. -/

inductive FSTree where
  | file (name : String)
  | dir (name : String) (children : List FSTree)

def FSTree.name : FSTree → String
  | .file n => n
  | .dir n _ => n

def FSTree.isFile : FSTree → Bool
  | .file _ => true
  | .dir _ _ => false

def FSTree.isDir : FSTree → Bool
  | .file _ => false
  | .dir _ _ => true

def FSTree.children : FSTree → List FSTree
  | .file _ => []
  | .dir _ cs => cs

/-- The file names of a directory listing, as reported by `os.walk`. -/
def fileNamesOf (children : List FSTree) : List String :=
  (children.filter FSTree.isFile).map FSTree.name

/-- The subdirectory names of a directory listing, as reported by `os.walk`. -/
def dirNamesOf (children : List FSTree) : List String :=
  (children.filter FSTree.isDir).map FSTree.name

namespace BuildHelpers

/-! ### mip_build_helpers/build_helpers.py -/

/-- `_extract_symbol_name`: strip a trailing `.m`, then strip a leading `+` or
`@` from the result.  Both steps are plain `if` statements in the source, so
both can fire on the same name. -/
def extract_symbol_name (itemName : String) : String :=
  let itemName := if pyEndsWith itemName ".m" then pyDropRight itemName 2 else itemName
  if pyStartsWith itemName "+" || pyStartsWith itemName "@" then pyDrop itemName 1
  else itemName

/-- `collect_exposed_symbols_with_extensions(package_dir, extensions=None)`.
`packageDir` is `none` when the directory does not exist; `extensions = none`
models the Python default argument `None`. -/
def collect_exposed_symbols_with_extensions (packageDir : Option (List FSTree))
    (extensions : Option (List String)) : List String :=
  let exts := match extensions with
    | none => [".m"]
    | some e => e
  match packageDir with
  | none => []
  | some items =>
      (List.insertionSort (fun a b => PyLe a.name b.name) items).flatMap fun item =>
        if item.isFile then
          match exts.find? (fun ext => pyEndsWith item.name ext) with
          | some ext => [pyDropRight item.name ext.length]
          | none => []
        else if item.isDir && (pyStartsWith item.name "+" || pyStartsWith item.name "@") then
          [pyDrop item.name 1]
        else []

instance : DecidableRel (fun (a b : FSTree) => PyLe a.name b.name) :=
  fun _ _ => inferInstanceAs (Decidable (_ = true))

/-- `collect_exposed_symbols_top_level(package_dir, base_path=".")`.  The
`base_path` argument is accepted and ignored, as in the source. -/
def collect_exposed_symbols_top_level (packageDir : Option (List FSTree))
    (basePath : String) : List String :=
  match packageDir with
  | none => []
  | some items =>
      let _ := basePath
      (List.insertionSort (fun a b => PyLe a.name b.name) items).flatMap fun item =>
        if pyEndsWith item.name ".m" && item.isFile then [extract_symbol_name item.name]
        else if item.isDir && (pyStartsWith item.name "+" || pyStartsWith item.name "@") then
          [extract_symbol_name item.name]
        else []

/-- The per-directory symbol harvest of `collect_exposed_symbols_recursive`:
excluded names are removed from the subdirectory list first, then sorted `.m`
files and sorted `+`/`@` directories are decoded and appended. -/
def levelNames (excl : List String) (fileNames dirNames : List String) : List String :=
  let dirNames := dirNames.filter (fun d => !(excl.contains d))
  (sortStrings fileNames).filterMap
      (fun f => if pyEndsWith f ".m" then some (extract_symbol_name f) else none)
    ++ (sortStrings dirNames).filterMap
      (fun d => if pyStartsWith d "+" || pyStartsWith d "@" then some (extract_symbol_name d)
        else none)

mutual

/-- The `os.walk` loop body of `collect_exposed_symbols_recursive`: harvest the
current directory, then descend into the non-excluded subdirectories. -/
def walkTree (excl : List String) : FSTree → List String
  | .file _ => []
  | .dir _ children =>
      levelNames excl (fileNamesOf children) (dirNamesOf children) ++ walkForest excl children

/-- Descend into the subdirectories of a listing, skipping the ones whose name
is in the exclusion list (mirroring the `dirs[:] = ...` pruning). -/
def walkForest (excl : List String) : List FSTree → List String
  | [] => []
  | FSTree.file _ :: rest => walkForest excl rest
  | FSTree.dir n cs :: rest =>
      (if excl.contains n then [] else walkTree excl (FSTree.dir n cs))
        ++ walkForest excl rest

end

/-- `collect_exposed_symbols_recursive(package_dir, base_path=".",
exclude_dirs=None)`: walk the tree, harvest every level, sort the final list.
`excludeDirs = none` models the Python default `None` (replaced by `[]`). -/
def collect_exposed_symbols_recursive (packageDir : Option FSTree)
    (excludeDirs : Option (List String)) : List String :=
  match packageDir with
  | none => []
  | some t =>
      let excl := match excludeDirs with
        | none => []
        | some e => e
      sortStrings (walkTree excl t)

/-- `collect_exposed_symbols_multiple_paths(package_dirs, base_paths)`:
top-level collection over each `(dir, base)` pair, concatenated and sorted. -/
def collect_exposed_symbols_multiple_paths (packageDirs : List (Option (List FSTree)))
    (basePaths : List String) : List String :=
  sortStrings ((packageDirs.zip basePaths).flatMap
    (fun p => collect_exposed_symbols_top_level p.1 p.2))

end BuildHelpers

/-! ### Python value and dictionary model

JSON documents, YAML data and Python object attribute sets are modelled as
association lists from string keys to `PyVal`.  `PyVal.none` models both the
Python `None` object and the JSON `null` value (they are the same value in the
running Python programs: `json.loads` maps `null` to `None`). -/

inductive PyVal where
  | none
  | bool (b : Bool)
  | int (n : Int)
  | str (s : String)
  | list (xs : List PyVal)

mutual

def PyVal.beq : PyVal → PyVal → Bool
  | .none, .none => true
  | .bool a, .bool b => a == b
  | .int a, .int b => a == b
  | .str a, .str b => a == b
  | .list as, .list bs => PyVal.beqList as bs
  | _, _ => false

def PyVal.beqList : List PyVal → List PyVal → Bool
  | [], [] => true
  | a :: as, b :: bs => PyVal.beq a b && PyVal.beqList as bs
  | _, _ => false

end

instance : BEq PyVal := ⟨PyVal.beq⟩

/-- A Python dictionary with string keys (also used for JSON objects). -/
abbrev PyDict : Type := List (String × PyVal)

/-- Python `d.get(k)`: the stored value when the key is present, `None`
otherwise. -/
def pyGet (d : PyDict) (k : String) : PyVal :=
  match d.find? (fun p => p.1 == k) with
  | some p => p.2
  | Option.none => PyVal.none

/-- Python `d.get(k, dflt)`. -/
def pyGetDefault (d : PyDict) (k : String) (dflt : PyVal) : PyVal :=
  match d.find? (fun p => p.1 == k) with
  | some p => p.2
  | Option.none => dflt

/-- Python `d[k]`: the stored value, or a `KeyError` when the key is absent. -/
def pyItem (d : PyDict) (k : String) : Except String PyVal :=
  match d.find? (fun p => p.1 == k) with
  | some p => Except.ok p.2
  | Option.none => Except.error ("KeyError: " ++ k)

/-- Python `k in d` (key membership test on a dictionary). -/
def hasKey (d : PyDict) (k : String) : Bool :=
  (d.find? (fun p => p.1 == k)).isSome

namespace BuildHelpers

/-- `create_mip_json` (mip_build_helpers/build_helpers.py): the dictionary
serialized to `mip.json`.  `PyVal.none` arguments model the Python default
argument `None`; the `package` and `version` keys are appended only when the
corresponding argument is not `None`. -/
def create_mip_json (package_name dependencies exposed_symbols version : PyVal) : PyDict :=
  let dependencies := if dependencies == PyVal.none then PyVal.list [] else dependencies
  let exposed_symbols := if exposed_symbols == PyVal.none then PyVal.list [] else exposed_symbols
  let mip_config : PyDict := [("dependencies", dependencies), ("exposed_symbols", exposed_symbols)]
  let mip_config := if (package_name == PyVal.none) = false
    then mip_config ++ [("package", package_name)] else mip_config
  let mip_config := if (version == PyVal.none) = false
    then mip_config ++ [("version", version)] else mip_config
  mip_config

/-- State of the working directory during `download_and_extract_zip`
(mip_build_helpers/build_helpers.py and scripts/prepare_packages.py share this
code): whether the temporary archive `temp_download.zip` is on disk and whether
the archive members were extracted. -/
structure ZipFetchState where
  tempExists : Bool
  extracted : Bool

/-- `download_and_extract_zip(url, ...)`, with the two fallible external steps
abstracted by booleans: `httpOk` is whether `requests.get`/`raise_for_status`
succeeds with a 2xx status, `zipOk` is whether `ZipFile(...)`/`extractall`
succeeds.  The result is the final on-disk state together with the exception
raised, if any.  The `os.remove(download_file)` step runs only after a
successful extraction: there is no `try`/`finally` in the source. -/
def download_and_extract_zip (httpOk zipOk : Bool) : ZipFetchState × Option String :=
  let s : ZipFetchState := { tempExists := false, extracted := false }
  if httpOk = false then
    (s, some "HTTPError")
  else
    let s := { s with tempExists := true }
    if zipOk = false then
      (s, some "BadZipFile")
    else
      let s := { s with extracted := true }
      let s := { s with tempExists := false }
      (s, Option.none)

end BuildHelpers

namespace PreparePackages

/-! ### scripts/prepare_packages.py -/

/-- The class of request-level errors modelled: every one of these is a
`requests.RequestException` in the source. -/
inductive RequestErrorKind where
  | timeout
  | connectionError
  | httpStatusError

/-- Outcome of the HTTP probe for the remote manifest in
`PackagePreparer._check_existing_package`: a 404 response, a request-level
error (either raised by `requests.get` itself or by `raise_for_status`), or a
successful response whose body parses to the given JSON object. -/
inductive ProbeOutcome where
  | notFound
  | requestError (kind : RequestErrorKind)
  | ok (metadata : PyDict)

/-- The fixed field list compared by `PackagePreparer._check_existing_package`. -/
def fields_to_compare : List String :=
  ["name", "description", "version", "release_number",
   "dependencies", "homepage", "repository", "license"]

/-- The `try` block of `PackagePreparer._check_existing_package`: `.error`
is an uncaught `requests.RequestException` escaping the block. -/
def check_existing_package_body (probe : ProbeOutcome) (package_data : PyDict) :
    Except RequestErrorKind Bool :=
  match probe with
  | .notFound => Except.ok false
  | .requestError k => Except.error k
  | .ok existing_metadata =>
      Except.ok (fields_to_compare.all
        (fun field => pyGet existing_metadata field == pyGet package_data field))

/-- `PackagePreparer._check_existing_package`: the `except requests.RequestException`
handler turns every request-level error into `False`. -/
def check_existing_package (probe : ProbeOutcome) (package_data : PyDict) : Bool :=
  match check_existing_package_body probe package_data with
  | Except.ok b => b
  | Except.error _ => false

/-- `PackagePreparer._create_mip_json`: the dictionary written to `mip.json`.
Required fields are read with `yaml_data[...]` (raising `KeyError` when
absent); optional fields are read with `yaml_data.get(..., default)` and are
always present in the output.  The timestamp, durations and URL are opaque
parameters here. -/
def create_mip_json (yaml_data : PyDict) (build : PyDict) (exposed_symbols : PyVal)
    (timestamp : PyVal) (prepare_duration : PyVal) (mhl_url : PyVal) :
    Except String PyDict := do
  let name ← pyItem yaml_data "name"
  let description ← pyItem yaml_data "description"
  let version ← pyItem yaml_data "version"
  let release_number ← pyItem yaml_data "release_number"
  let matlab_tag ← pyItem build "matlab_tag"
  let abi_tag ← pyItem build "abi_tag"
  let platform_tag ← pyItem build "platform_tag"
  Except.ok
    [("name", name),
     ("description", description),
     ("version", version),
     ("release_number", release_number),
     ("dependencies", pyGetDefault yaml_data "dependencies" (PyVal.list [])),
     ("homepage", pyGetDefault yaml_data "homepage" (PyVal.str "")),
     ("repository", pyGetDefault yaml_data "repository" (PyVal.str "")),
     ("license", pyGetDefault yaml_data "license" (PyVal.str "")),
     ("matlab_tag", matlab_tag),
     ("abi_tag", abi_tag),
     ("platform_tag", platform_tag),
     ("usage_examples", pyGetDefault yaml_data "usage_examples" (PyVal.list [])),
     ("exposed_symbols", exposed_symbols),
     ("timestamp", timestamp),
     ("prepare_duration", prepare_duration),
     ("compile_duration", PyVal.int 0),
     ("mhl_url", mhl_url)]

end PreparePackages

namespace BuildAndUpload

/-! ### scripts/build_and_upload_packages.py -/

/-- The attributes of a `Package` instance read by
`PackageBuilder._check_existing_package` via `getattr`. -/
structure Package where
  name : PyVal
  description : PyVal
  version : PyVal
  build_number : PyVal
  dependencies : PyVal
  homepage : PyVal
  repository : PyVal

/-- `getattr(package, field)` for the compared fields. -/
def getattrPackage (p : Package) (field : String) : PyVal :=
  if field == "name" then p.name
  else if field == "description" then p.description
  else if field == "version" then p.version
  else if field == "build_number" then p.build_number
  else if field == "dependencies" then p.dependencies
  else if field == "homepage" then p.homepage
  else p.repository

/-- The fixed field list compared by `PackageBuilder._check_existing_package`. -/
def fields_to_compare : List String :=
  ["name", "description", "version", "build_number",
   "dependencies", "homepage", "repository"]

/-- The `try` block of `PackageBuilder._check_existing_package`. -/
def check_existing_package_body (probe : PreparePackages.ProbeOutcome) (package : Package) :
    Except PreparePackages.RequestErrorKind Bool :=
  match probe with
  | .notFound => Except.ok false
  | .requestError k => Except.error k
  | .ok existing_metadata =>
      Except.ok (fields_to_compare.all
        (fun field => pyGet existing_metadata field == getattrPackage package field))

/-- `PackageBuilder._check_existing_package`, with the
`except requests.RequestException` handler. -/
def check_existing_package (probe : PreparePackages.ProbeOutcome) (package : Package) : Bool :=
  match check_existing_package_body probe package with
  | Except.ok b => b
  | Except.error _ => false

end BuildAndUpload

namespace LoadUnloadScripts

/-! ### mip_build_helpers/create_load_and_unload_scripts.py -/

/-- One emitted MATLAB statement of a generated script.  `assign v e` is the
line `v = e;`, `addpath v` the line `addpath(v);`, `rmpath v` the line
`rmpath(v);`. -/
inductive MLine where
  | comment (text : String)
  | assign (var expr : String)
  | addpath (var : String)
  | rmpath (var : String)

/-- Python truthiness of the `subdirs` argument: `None` and `[]` are falsy. -/
def pyTruthy : Option (List String) → Bool
  | Option.none => false
  | some [] => false
  | some (_ :: _) => true

/-- The MATLAB expression computing the main package path. -/
def mainPathExpr (package_name : String) : String :=
  "fullfile(fileparts(mfilename('fullpath')), '" ++ package_name ++ "')"

/-- The MATLAB expression computing a subdirectory path. -/
def subPathExpr (package_name subdir : String) : String :=
  "fullfile(" ++ package_name ++ "_path, '" ++ subdir ++ "')"

/-- The statements written to `load_package.m`. -/
def load_package_lines (package_name : String) (subdirs : Option (List String)) : List MLine :=
  [MLine.comment ("Add " ++ package_name ++ " to the MATLAB path"),
   MLine.assign (package_name ++ "_path") (mainPathExpr package_name),
   MLine.addpath (package_name ++ "_path")]
  ++ (if pyTruthy subdirs then
        (subdirs.getD []).flatMap (fun subdir =>
          [MLine.comment ("Add " ++ package_name ++ "/" ++ subdir ++ " to the path"),
           MLine.assign (subdir ++ "_path") (subPathExpr package_name subdir),
           MLine.addpath (subdir ++ "_path")])
      else [])

/-- The statements written to `unload_package.m`. -/
def unload_package_lines (package_name : String) (subdirs : Option (List String)) : List MLine :=
  [MLine.comment ("Remove " ++ package_name ++ " from the MATLAB path")]
  ++ (if pyTruthy subdirs then
        MLine.assign (package_name ++ "_path") (mainPathExpr package_name)
          :: (subdirs.getD []).reverse.flatMap (fun subdir =>
            [MLine.comment ("Remove " ++ package_name ++ "/" ++ subdir ++ " from the path"),
             MLine.assign (subdir ++ "_path") (subPathExpr package_name subdir),
             MLine.rmpath (subdir ++ "_path")])
      else [MLine.assign (package_name ++ "_path") (mainPathExpr package_name)])
  ++ [MLine.rmpath (package_name ++ "_path")]

mutual

/-- One step of the `os.walk` loop computing the automatic subdirectory list in
`add_all_subdirs` mode: every directory except the walk root contributes its
relative path. -/
def allSubdirPathsTree (pre : String) : FSTree → List String
  | .file _ => []
  | .dir n cs => (pre ++ n) :: allSubdirPathsForest (pre ++ n ++ "/") cs

def allSubdirPathsForest (pre : String) : List FSTree → List String
  | [] => []
  | t :: ts => allSubdirPathsTree pre t ++ allSubdirPathsForest pre ts

end

/-- `create_load_and_unload_scripts(mhl_dir, package_name, subdirs=None,
add_all_subdirs=False)`: the pair of scripts written, or the `ValueError`
raised when both `subdirs` and `add_all_subdirs` are supplied.
`packageDirChildren` is the listing of the package directory walked in
`add_all_subdirs` mode. -/
def create_load_and_unload_scripts (package_name : String) (subdirs : Option (List String))
    (add_all_subdirs : Bool) (packageDirChildren : List FSTree) :
    Except String (List MLine × List MLine) :=
  if add_all_subdirs then
    match subdirs with
    | some _ => Except.error "Cannot use add_all_subdirs=True with subdirs argument"
    | Option.none =>
        let subdirs := some (allSubdirPathsForest "" packageDirChildren)
        Except.ok (load_package_lines package_name subdirs,
          unload_package_lines package_name subdirs)
  else
    Except.ok (load_package_lines package_name subdirs,
      unload_package_lines package_name subdirs)

/-- The sequence of `addpath` targets of a script, in emission order. -/
def addpathTargets (lines : List MLine) : List String :=
  lines.filterMap (fun l => match l with
    | MLine.addpath v => some v
    | _ => Option.none)

/-- The sequence of `rmpath` targets of a script, in emission order. -/
def rmpathTargets (lines : List MLine) : List String :=
  lines.filterMap (fun l => match l with
    | MLine.rmpath v => some v
    | _ => Option.none)

end LoadUnloadScripts

/-! ### Helper lemmas -/

theorem hasKey_nil (k : String) : hasKey [] k = false := rfl

theorem hasKey_cons (k' : String) (v : PyVal) (d : PyDict) (k : String) :
    hasKey ((k', v) :: d) k = ((k' == k) || hasKey d k) := by
  unfold hasKey
  rw [List.find?_cons]
  cases h : k' == k with
  | true => simp [h]
  | false => simp [h]

theorem hasKey_append (d₁ d₂ : PyDict) (k : String) :
    hasKey (d₁ ++ d₂) k = (hasKey d₁ k || hasKey d₂ k) := by
  induction d₁ with
  | nil => simp [hasKey_nil, hasKey]
  | cons p d ih =>
      rw [List.cons_append, show p = (p.1, p.2) from rfl, hasKey_cons, hasKey_cons, ih,
        Bool.or_assoc]

theorem pyGet_eq_none_of_hasKey_eq_false (d : PyDict) (k : String)
    (h : hasKey d k = false) : pyGet d k = PyVal.none := by
  unfold hasKey at h
  unfold pyGet
  cases hf : d.find? (fun p => p.1 == k) with
  | none => rfl
  | some p => rw [hf] at h; simp at h

theorem pyVal_beq_none_comm (v : PyVal) : (PyVal.none == v) = (v == PyVal.none) := by
  cases v <;> rfl

theorem pyVal_beq_none_refl : (PyVal.none == PyVal.none) = true := rfl

namespace BuildHelpers

theorem walkForest_append (excl : List String) (xs ys : List FSTree) :
    walkForest excl (xs ++ ys) = walkForest excl xs ++ walkForest excl ys := by
  induction xs with
  | nil => simp [walkForest]
  | cons t ts ih =>
      cases t with
      | file n => simpa [walkForest] using ih
      | dir n cs => simp [walkForest, ih, List.append_assoc]

theorem fileNamesOf_append (xs ys : List FSTree) :
    fileNamesOf (xs ++ ys) = fileNamesOf xs ++ fileNamesOf ys := by
  simp [fileNamesOf, List.filter_append]

theorem dirNamesOf_append (xs ys : List FSTree) :
    dirNamesOf (xs ++ ys) = dirNamesOf xs ++ dirNamesOf ys := by
  simp [dirNamesOf, List.filter_append]

theorem fileNamesOf_cons_dir (n : String) (cs : List FSTree) (ys : List FSTree) :
    fileNamesOf (FSTree.dir n cs :: ys) = fileNamesOf ys := by
  simp [fileNamesOf, List.filter_cons, FSTree.isFile]

theorem dirNamesOf_cons_dir (n : String) (cs : List FSTree) (ys : List FSTree) :
    dirNamesOf (FSTree.dir n cs :: ys) = n :: dirNamesOf ys := by
  simp [dirNamesOf, List.filter_cons, FSTree.isDir, FSTree.name]

theorem levelNames_drop_excluded (excl : List String) (fns d₁ d₂ : List String)
    (name : String) (h : excl.contains name = true) :
    levelNames excl fns (d₁ ++ name :: d₂) = levelNames excl fns (d₁ ++ d₂) := by
  have hm : name ∈ excl := List.mem_of_elem_eq_true h
  simp [levelNames, List.filter_append, List.filter_cons, hm]

/-- The relation `InsertsExcluded name sub t t'` holds when `t` is obtained
from `t'` by inserting, as a child of some (arbitrarily deeply nested)
directory node of `t'`, an extra directory entry named `name` with an arbitrary
subtree `sub` beneath it. -/
inductive InsertsExcluded (name : String) (sub : List FSTree) : FSTree → FSTree → Prop
  | here (n : String) (l₁ l₂ : List FSTree) :
      InsertsExcluded name sub (FSTree.dir n (l₁ ++ FSTree.dir name sub :: l₂))
        (FSTree.dir n (l₁ ++ l₂))
  | deeper (n : String) (l₁ l₂ : List FSTree) (t t' : FSTree) :
      InsertsExcluded name sub t t' →
      InsertsExcluded name sub (FSTree.dir n (l₁ ++ t :: l₂)) (FSTree.dir n (l₁ ++ t' :: l₂))

theorem InsertsExcluded.shape {name : String} {sub : List FSTree} {t t' : FSTree}
    (h : InsertsExcluded name sub t t') :
    ∃ m cs cs', t = FSTree.dir m cs ∧ t' = FSTree.dir m cs' := by
  cases h with
  | here n l₁ l₂ => exact ⟨n, _, _, rfl, rfl⟩
  | deeper n l₁ l₂ a b hh => exact ⟨n, _, _, rfl, rfl⟩

theorem walkTree_insert_excluded (excl : List String) (name : String) (sub : List FSTree)
    (hmem : excl.contains name = true) :
    ∀ t t', InsertsExcluded name sub t t' → walkTree excl t = walkTree excl t' := by
  intro t t' hrel
  induction hrel with
  | here n l₁ l₂ =>
      rw [walkTree, walkTree]
      have hw : walkForest excl (FSTree.dir name sub :: l₂) = walkForest excl l₂ := by
        rw [walkForest, hmem]
        simp
      rw [walkForest_append, walkForest_append, hw,
        fileNamesOf_append, fileNamesOf_append, fileNamesOf_cons_dir,
        dirNamesOf_append, dirNamesOf_append, dirNamesOf_cons_dir,
        levelNames_drop_excluded excl _ _ _ name hmem]
  | deeper n l₁ l₂ a b hh ih =>
      obtain ⟨m, cs, cs', rfl, rfl⟩ := hh.shape
      rw [walkTree, walkTree]
      have hwa : walkForest excl (FSTree.dir m cs :: l₂) =
          (if excl.contains m then [] else walkTree excl (FSTree.dir m cs))
            ++ walkForest excl l₂ := by rw [walkForest]
      have hwb : walkForest excl (FSTree.dir m cs' :: l₂) =
          (if excl.contains m then [] else walkTree excl (FSTree.dir m cs'))
            ++ walkForest excl l₂ := by rw [walkForest]
      rw [walkForest_append, walkForest_append, hwa, hwb, ih,
        fileNamesOf_append, fileNamesOf_append, fileNamesOf_cons_dir, fileNamesOf_cons_dir,
        dirNamesOf_append, dirNamesOf_append, dirNamesOf_cons_dir, dirNamesOf_cons_dir]

end BuildHelpers

namespace LoadUnloadScripts

theorem addpathTargets_append (xs ys : List MLine) :
    addpathTargets (xs ++ ys) = addpathTargets xs ++ addpathTargets ys := by
  simp [addpathTargets, List.filterMap_append]

theorem rmpathTargets_append (xs ys : List MLine) :
    rmpathTargets (xs ++ ys) = rmpathTargets xs ++ rmpathTargets ys := by
  simp [rmpathTargets, List.filterMap_append]

theorem addpathTargets_load_blocks (pkg : String) (subs : List String) :
    addpathTargets (subs.flatMap (fun subdir =>
      [MLine.comment ("Add " ++ pkg ++ "/" ++ subdir ++ " to the path"),
       MLine.assign (subdir ++ "_path") (subPathExpr pkg subdir),
       MLine.addpath (subdir ++ "_path")])) = subs.map (fun s => s ++ "_path") := by
  induction subs with
  | nil => rfl
  | cons a as ih =>
      rw [List.flatMap_cons, addpathTargets_append, ih]
      rfl

theorem rmpathTargets_unload_blocks (pkg : String) (subs : List String) :
    rmpathTargets (subs.flatMap (fun subdir =>
      [MLine.comment ("Remove " ++ pkg ++ "/" ++ subdir ++ " from the path"),
       MLine.assign (subdir ++ "_path") (subPathExpr pkg subdir),
       MLine.rmpath (subdir ++ "_path")])) = subs.map (fun s => s ++ "_path") := by
  induction subs with
  | nil => rfl
  | cons a as ih =>
      rw [List.flatMap_cons, rmpathTargets_append, ih]
      rfl

end LoadUnloadScripts

/-! ### Claim theorems -/

/-- C1 counterexample: on the input `'+pkg.m'`, which ends in the recognized
suffix `.m`, `_extract_symbol_name` does not return the input with only the
suffix removed (`'+pkg'`); the prefix rule fires as well and the result is
`'pkg'`. -/
theorem C1_counterexample :
    pyEndsWith "+pkg.m" ".m" = true ∧
    BuildHelpers.extract_symbol_name "+pkg.m" = "pkg" ∧
    pyDropRight "+pkg.m" 2 = "+pkg" ∧
    BuildHelpers.extract_symbol_name "+pkg.m" ≠ pyDropRight "+pkg.m" 2 := by
  refine ⟨by decide, by decide, by decide, by decide⟩

/-- C1 (amended): for every entry name ending in `.m`, the decoder first
removes that suffix and then additionally strips one leading `+` or `@` when
the suffix-stripped result begins with such a marker; the two rules are
sequential, not mutually exclusive. -/
theorem C1_theorem (s : String) (h : pyEndsWith s ".m" = true) :
    BuildHelpers.extract_symbol_name s =
      (if pyStartsWith (pyDropRight s 2) "+" || pyStartsWith (pyDropRight s 2) "@"
        then pyDrop (pyDropRight s 2) 1 else pyDropRight s 2) := by
  simp only [BuildHelpers.extract_symbol_name, h, if_true]

/-- C1 witness: the amended statement applied to the concrete input `'+pkg.m'`. -/
theorem C1_theorem_witness :
    BuildHelpers.extract_symbol_name "+pkg.m" =
      (if pyStartsWith (pyDropRight "+pkg.m" 2) "+" || pyStartsWith (pyDropRight "+pkg.m" 2) "@"
        then pyDrop (pyDropRight "+pkg.m" 2) 1 else pyDropRight "+pkg.m" 2) :=
  C1_theorem "+pkg.m" (by decide)

/-- C2 counterexample: a directory containing the file `foo.m` and the package
directory `+foo` makes the recursive collector return the name `foo` twice —
the result is not duplicate-free. -/
theorem C2_counterexample :
    BuildHelpers.collect_exposed_symbols_recursive
        (some (FSTree.dir "pkg" [FSTree.file "foo.m", FSTree.dir "+foo" []])) Option.none
      = ["foo", "foo"] ∧
    ¬ (BuildHelpers.collect_exposed_symbols_recursive
        (some (FSTree.dir "pkg" [FSTree.file "foo.m", FSTree.dir "+foo" []])) Option.none).Nodup := by
  refine ⟨by decide, by decide⟩

/-- C2 (amended): the collectors sort but never deduplicate: the recursive
collector's result is a permutation of the symbols harvested per directory by
the walk, and the multi-path collector's result is a permutation of the
concatenated top-level collections, so a symbol name decoded from two distinct
qualifying entries occurs multiple times in the output. -/
theorem C2_theorem :
    (∀ (t : FSTree) (excl : Option (List String)),
      List.Perm (BuildHelpers.collect_exposed_symbols_recursive (some t) excl)
        (BuildHelpers.walkTree (excl.getD []) t)) ∧
    (∀ (ds : List (Option (List FSTree))) (bps : List String),
      List.Perm (BuildHelpers.collect_exposed_symbols_multiple_paths ds bps)
        ((ds.zip bps).flatMap (fun p => BuildHelpers.collect_exposed_symbols_top_level p.1 p.2))) := by
  constructor
  · intro t excl
    cases excl with
    | none => exact sortStrings_perm _
    | some e => exact sortStrings_perm _
  · intro ds bps
    exact sortStrings_perm _

/-- C3: the recursive collector returns its result sorted ascending over the
decoded names, and the top-level collector on a directory holding `foo.m`,
`+bar`, `@baz` and `ignored.txt` returns exactly `["bar", "baz", "foo"]` (the
raw names are sorted first, then each is decoded). -/
theorem C3_theorem :
    (∀ (pd : Option FSTree) (excl : Option (List String)),
      List.Sorted (· ≤ ·) (BuildHelpers.collect_exposed_symbols_recursive pd excl)) ∧
    BuildHelpers.collect_exposed_symbols_top_level
        (some [FSTree.file "foo.m", FSTree.dir "+bar" [], FSTree.dir "@baz" [],
          FSTree.file "ignored.txt"]) "." = ["bar", "baz", "foo"] := by
  constructor
  · intro pd excl
    cases pd with
    | none => simp [BuildHelpers.collect_exposed_symbols_recursive]
    | some t =>
        cases excl with
        | none => exact sortStrings_sorted _
        | some e => exact sortStrings_sorted _
  · decide

/-- C4: pruning of excluded directories happens before descending, so a
directory entry whose name is in the exclusion set contributes nothing at all:
inserting it (with an arbitrary subtree, at an arbitrary nesting depth) into a
scanned tree leaves the recursive collector's output unchanged. -/
theorem C4_theorem (excl : List String) (name : String) (sub : List FSTree)
    (t t' : FSTree) (hmem : excl.contains name = true)
    (h : BuildHelpers.InsertsExcluded name sub t t') :
    BuildHelpers.collect_exposed_symbols_recursive (some t) (some excl) =
      BuildHelpers.collect_exposed_symbols_recursive (some t') (some excl) := by
  show sortStrings (BuildHelpers.walkTree excl t) = sortStrings (BuildHelpers.walkTree excl t')
  rw [BuildHelpers.walkTree_insert_excluded excl name sub hmem t t' h]

/-- C4 witness: the spec's own example — excluding `test` removes `test/b.m`
from the scan of a tree with `a.m` at the root, `test/b.m` and `sub/c.m`; the
collector returns `["a", "c"]`, the same as on the tree with the `test`
directory absent. -/
theorem C4_theorem_witness :
    (["test"] : List String).contains "test" = true ∧
    BuildHelpers.collect_exposed_symbols_recursive
        (some (FSTree.dir "r" [FSTree.file "a.m",
          FSTree.dir "test" [FSTree.file "b.m"], FSTree.dir "sub" [FSTree.file "c.m"]]))
        (some ["test"]) =
      BuildHelpers.collect_exposed_symbols_recursive
        (some (FSTree.dir "r" [FSTree.file "a.m", FSTree.dir "sub" [FSTree.file "c.m"]]))
        (some ["test"]) ∧
    BuildHelpers.collect_exposed_symbols_recursive
        (some (FSTree.dir "r" [FSTree.file "a.m",
          FSTree.dir "test" [FSTree.file "b.m"], FSTree.dir "sub" [FSTree.file "c.m"]]))
        (some ["test"]) = ["a", "c"] :=
  ⟨by decide,
   C4_theorem ["test"] "test" [FSTree.file "b.m"] _ _ (by decide)
     (BuildHelpers.InsertsExcluded.here "r" [FSTree.file "a.m"]
       [FSTree.dir "sub" [FSTree.file "c.m"]]),
   by decide⟩

/-- C7 counterexample: when the download succeeds but extraction raises, the
function terminates with the exception and the temporary archive
`temp_download.zip` still exists on disk — the `os.remove` line is never
reached because there is no `try`/`finally`. -/
theorem C7_counterexample :
    (BuildHelpers.download_and_extract_zip true false).2 = some "BadZipFile" ∧
    (BuildHelpers.download_and_extract_zip true false).1.tempExists = true := by
  refine ⟨rfl, rfl⟩

/-- C7 (amended): the temporary archive is deleted exactly in the executions
where both the download and the extraction succeed; when extraction raises,
the archive file remains on disk. -/
theorem C7_theorem (httpOk zipOk : Bool) :
    (BuildHelpers.download_and_extract_zip httpOk zipOk).1.tempExists = (httpOk && !zipOk) ∧
    ((BuildHelpers.download_and_extract_zip httpOk zipOk).2 = Option.none →
      (BuildHelpers.download_and_extract_zip httpOk zipOk).1.tempExists = false) := by
  cases httpOk <;> cases zipOk <;>
    refine ⟨rfl, ?_⟩ <;> intro h <;> first
      | rfl
      | exact Option.noConfusion h

/-- C7 amended witness: the successful execution deletes the archive. -/
theorem C7_theorem_witness :
    (BuildHelpers.download_and_extract_zip true true).1.tempExists = (true && !true) ∧
    (BuildHelpers.download_and_extract_zip true true).1.tempExists = false :=
  ⟨(C7_theorem true true).1, (C7_theorem true true).2 rfl⟩

/-- C8: for every package name and subdirectory list, the load script adds
paths in the order main-then-subdirectories (in listed order) and the unload
script removes the subdirectories in exact reverse order before removing the
main directory last; with an absent or empty subdirectory list the unload
script still removes the main directory.  With `add_all_subdirs = False` the
public function emits exactly these two scripts. -/
theorem C8_theorem (package_name : String) (subdirs : Option (List String))
    (children : List FSTree) :
    LoadUnloadScripts.addpathTargets
        (LoadUnloadScripts.load_package_lines package_name subdirs) =
      (package_name ++ "_path") :: (subdirs.getD []).map (fun s => s ++ "_path") ∧
    LoadUnloadScripts.rmpathTargets
        (LoadUnloadScripts.unload_package_lines package_name subdirs) =
      ((subdirs.getD []).reverse.map (fun s => s ++ "_path")) ++ [package_name ++ "_path"] ∧
    LoadUnloadScripts.create_load_and_unload_scripts package_name subdirs false children =
      Except.ok (LoadUnloadScripts.load_package_lines package_name subdirs,
        LoadUnloadScripts.unload_package_lines package_name subdirs) := by
  refine ⟨?_, ?_, rfl⟩
  · cases subdirs with
    | none =>
        simp [LoadUnloadScripts.load_package_lines, LoadUnloadScripts.pyTruthy,
          LoadUnloadScripts.addpathTargets]
    | some subs =>
        cases subs with
        | nil =>
            simp [LoadUnloadScripts.load_package_lines, LoadUnloadScripts.pyTruthy,
              LoadUnloadScripts.addpathTargets]
        | cons a as =>
            simp only [LoadUnloadScripts.load_package_lines, LoadUnloadScripts.pyTruthy,
              if_true, Option.getD_some]
            rw [LoadUnloadScripts.addpathTargets_append,
              LoadUnloadScripts.addpathTargets_load_blocks]
            simp [LoadUnloadScripts.addpathTargets]
  · cases subdirs with
    | none =>
        simp [LoadUnloadScripts.unload_package_lines, LoadUnloadScripts.pyTruthy,
          LoadUnloadScripts.rmpathTargets]
    | some subs =>
        cases subs with
        | nil =>
            simp [LoadUnloadScripts.unload_package_lines, LoadUnloadScripts.pyTruthy,
              LoadUnloadScripts.rmpathTargets]
        | cons a as =>
            simp only [LoadUnloadScripts.unload_package_lines, LoadUnloadScripts.pyTruthy,
              if_true, Option.getD_some]
            rw [LoadUnloadScripts.rmpathTargets_append,
              LoadUnloadScripts.rmpathTargets_append]
            rw [show LoadUnloadScripts.rmpathTargets
                [LoadUnloadScripts.MLine.comment ("Remove " ++ package_name
                  ++ " from the MATLAB path")] = [] from rfl]
            rw [show ∀ x : List LoadUnloadScripts.MLine,
                LoadUnloadScripts.MLine.assign (package_name ++ "_path")
                  (LoadUnloadScripts.mainPathExpr package_name) :: x
                  = [LoadUnloadScripts.MLine.assign (package_name ++ "_path")
                      (LoadUnloadScripts.mainPathExpr package_name)] ++ x from fun _ => rfl]
            rw [LoadUnloadScripts.rmpathTargets_append,
              LoadUnloadScripts.rmpathTargets_unload_blocks]
            simp [LoadUnloadScripts.rmpathTargets]

/-- Splitting a successful Except bind into its two successful stages. -/
theorem bind_eq_ok_ex {ε α β : Type} {e : Except ε α} {k : α → Except ε β} {b : β}
    (h : (e >>= k) = Except.ok b) : ∃ a, e = Except.ok a ∧ k a = Except.ok b := by
  cases e with
  | error msg => exact Except.noConfusion h
  | ok a => exact ⟨a, rfl, h⟩

/-- A mismatch in any compared field makes `PackagePreparer._check_existing_package`
report a rebuild. -/
theorem check_mismatch_field (existing localData : PyDict) (f : String)
    (hf : f ∈ PreparePackages.fields_to_compare)
    (hdiff : (pyGet existing f == pyGet localData f) = false) :
    PreparePackages.check_existing_package
      (PreparePackages.ProbeOutcome.ok existing) localData = false := by
  show PreparePackages.fields_to_compare.all
    (fun field => pyGet existing field == pyGet localData field) = false
  exact List.all_eq_false.mpr ⟨f, hf, by simp [hdiff]⟩

/-- A mismatch in any compared field makes `PackageBuilder._check_existing_package`
report a rebuild. -/
theorem check_mismatch_field_bu (existing : PyDict) (p : BuildAndUpload.Package) (f : String)
    (hf : f ∈ BuildAndUpload.fields_to_compare)
    (hdiff : (pyGet existing f == BuildAndUpload.getattrPackage p f) = false) :
    BuildAndUpload.check_existing_package
      (PreparePackages.ProbeOutcome.ok existing) p = false := by
  show BuildAndUpload.fields_to_compare.all
    (fun field => pyGet existing field == BuildAndUpload.getattrPackage p field) = false
  exact List.all_eq_false.mpr ⟨f, hf, by simp [hdiff]⟩

/-- C5 counterexample: the remote manifest carries `"license": null` (the key
is present) while the local package data does not define `license` at all —
the field is present on exactly one side — yet the existence check reports a
match (`True`, package skipped) because `.get` maps the absent key to `None`,
which compares equal to the stored JSON `null`. -/
theorem C5_counterexample :
    hasKey [("name", PyVal.str "p"), ("license", PyVal.none)] "license" = true ∧
    hasKey [("name", PyVal.str "p")] "license" = false ∧
    PreparePackages.check_existing_package
      (PreparePackages.ProbeOutcome.ok [("name", PyVal.str "p"), ("license", PyVal.none)])
      [("name", PyVal.str "p")] = true := by
  refine ⟨by decide, by decide, by decide⟩

/-- C5 (amended): the existence check compares, with exact equality, the
values retrieved by `.get`, which maps an absent key to `None`.  Hence any
difference of retrieved values — in particular a field present on exactly one
side with a non-null value — forces a rebuild, in both orchestrators; but a
present `null` value is retrieved as `None` and therefore compares equal to an
absent field, so such a pair does not by itself force a rebuild. -/
theorem C5_theorem :
    (∀ (existing localData : PyDict) (f : String), f ∈ PreparePackages.fields_to_compare →
      (((pyGet existing f == pyGet localData f) = false →
          PreparePackages.check_existing_package
            (PreparePackages.ProbeOutcome.ok existing) localData = false) ∧
       (hasKey localData f = false → (pyGet existing f == PyVal.none) = false →
          PreparePackages.check_existing_package
            (PreparePackages.ProbeOutcome.ok existing) localData = false) ∧
       (hasKey existing f = false → (pyGet localData f == PyVal.none) = false →
          PreparePackages.check_existing_package
            (PreparePackages.ProbeOutcome.ok existing) localData = false) ∧
       (hasKey localData f = false → (pyGet existing f == PyVal.none) = true →
          (pyGet existing f == pyGet localData f) = true))) ∧
    (∀ (existing : PyDict) (p : BuildAndUpload.Package) (f : String),
      f ∈ BuildAndUpload.fields_to_compare →
      (pyGet existing f == BuildAndUpload.getattrPackage p f) = false →
      BuildAndUpload.check_existing_package
        (PreparePackages.ProbeOutcome.ok existing) p = false) := by
  constructor
  · intro existing localData f hf
    refine ⟨fun hdiff => check_mismatch_field existing localData f hf hdiff, ?_, ?_, ?_⟩
    · intro hmiss hval
      apply check_mismatch_field existing localData f hf
      rw [pyGet_eq_none_of_hasKey_eq_false localData f hmiss]
      exact hval
    · intro hmiss hval
      apply check_mismatch_field existing localData f hf
      rw [pyGet_eq_none_of_hasKey_eq_false existing f hmiss, pyVal_beq_none_comm]
      exact hval
    · intro hmiss hval
      rw [pyGet_eq_none_of_hasKey_eq_false localData f hmiss]
      exact hval
  · intro existing p f hf hdiff
    exact check_mismatch_field_bu existing p f hf hdiff

/-- C5 witness: a remote manifest with `license` `"MIT"` against local data
without a `license` key — present on one side with a non-null value — makes
the check report a mismatch (rebuild). -/
theorem C5_theorem_witness :
    PreparePackages.check_existing_package
      (PreparePackages.ProbeOutcome.ok [("name", PyVal.str "p"), ("license", PyVal.str "MIT")])
      [("name", PyVal.str "p")] = false :=
  (C5_theorem.1 [("name", PyVal.str "p"), ("license", PyVal.str "MIT")]
      [("name", PyVal.str "p")] "license" (by decide)).2.1 (by decide) (by decide)

/-- C6 counterexample: `PackagePreparer._create_mip_json` on YAML data with no
`license` key still emits a `license` key (with the empty-string placeholder) —
the optional field is not omitted from the written document. -/
theorem C6_counterexample :
    hasKey [("name", PyVal.str "pkg"), ("description", PyVal.str "d"),
        ("version", PyVal.str "1.0"), ("release_number", PyVal.int 1)] "license" = false ∧
    (match PreparePackages.create_mip_json
        [("name", PyVal.str "pkg"), ("description", PyVal.str "d"),
         ("version", PyVal.str "1.0"), ("release_number", PyVal.int 1)]
        [("matlab_tag", PyVal.str "latest"), ("abi_tag", PyVal.str "none"),
         ("platform_tag", PyVal.str "any")]
        (PyVal.list []) (PyVal.str "t") (PyVal.int 0) (PyVal.str "u") with
      | Except.ok d => hasKey d "license" && hasKey d "usage_examples"
      | Except.error _ => false) = true := by
  refine ⟨by decide, by decide⟩

/-- C6 (amended): the helper `create_mip_json` of mip_build_helpers does omit
the optional `package` and `version` keys entirely when the source value is
`None` and emits them when it is not; but the orchestrator's
`_create_mip_json` always emits the `license` and `usage_examples` keys,
substituting empty placeholders (`''`, `[]`) when the YAML source value is
absent. -/
theorem C6_theorem :
    (∀ deps es v, hasKey (BuildHelpers.create_mip_json PyVal.none deps es v) "package" = false) ∧
    (∀ pn deps es v, (pn == PyVal.none) = false →
      hasKey (BuildHelpers.create_mip_json pn deps es v) "package" = true) ∧
    (∀ pn deps es, hasKey (BuildHelpers.create_mip_json pn deps es PyVal.none) "version" = false) ∧
    (∀ pn deps es v, (v == PyVal.none) = false →
      hasKey (BuildHelpers.create_mip_json pn deps es v) "version" = true) ∧
    (∀ yaml build es ts pd url d,
      PreparePackages.create_mip_json yaml build es ts pd url = Except.ok d →
      hasKey d "license" = true ∧ hasKey d "usage_examples" = true) := by
  refine ⟨?_, ?_, ?_, ?_, ?_⟩
  · intro deps es v
    by_cases hv : (v == PyVal.none) = false <;>
      simp [BuildHelpers.create_mip_json, pyVal_beq_none_refl, hv,
        hasKey_append, hasKey_cons, hasKey_nil]
  · intro pn deps es v hpn
    by_cases hv : (v == PyVal.none) = false <;>
      simp [BuildHelpers.create_mip_json, hpn, hv,
        hasKey_append, hasKey_cons, hasKey_nil]
  · intro pn deps es
    by_cases hpn : (pn == PyVal.none) = false <;>
      simp [BuildHelpers.create_mip_json, pyVal_beq_none_refl, hpn,
        hasKey_append, hasKey_cons, hasKey_nil]
  · intro pn deps es v hv
    by_cases hpn : (pn == PyVal.none) = false <;>
      simp [BuildHelpers.create_mip_json, hpn, hv,
        hasKey_append, hasKey_cons, hasKey_nil]
  · intro yaml build es ts pd url d h
    unfold PreparePackages.create_mip_json at h
    obtain ⟨name, h1, h⟩ := bind_eq_ok_ex h
    obtain ⟨description, h2, h⟩ := bind_eq_ok_ex h
    obtain ⟨version, h3, h⟩ := bind_eq_ok_ex h
    obtain ⟨release_number, h4, h⟩ := bind_eq_ok_ex h
    obtain ⟨matlab_tag, h5, h⟩ := bind_eq_ok_ex h
    obtain ⟨abi_tag, h6, h⟩ := bind_eq_ok_ex h
    obtain ⟨platform_tag, h7, h⟩ := bind_eq_ok_ex h
    cases h
    exact ⟨rfl, rfl⟩

/-- C6 witness: the helper emits the `package` key for a non-`None` package
name and the `version` key for a non-`None` version. -/
theorem C6_theorem_witness :
    hasKey (BuildHelpers.create_mip_json (PyVal.str "chebfun") PyVal.none PyVal.none PyVal.none)
      "package" = true ∧
    hasKey (BuildHelpers.create_mip_json PyVal.none PyVal.none PyVal.none (PyVal.str "1.0"))
      "version" = true :=
  ⟨C6_theorem.2.1 (PyVal.str "chebfun") PyVal.none PyVal.none PyVal.none (by decide),
   C6_theorem.2.2.2.1 PyVal.none PyVal.none PyVal.none (PyVal.str "1.0") (by decide)⟩

/-- C9: every collector mode returns the empty list on a nonexistent input
directory, and the multi-path collector over two nonexistent directories
returns the empty list; none of them can raise. -/
theorem C9_theorem :
    (∀ exts, BuildHelpers.collect_exposed_symbols_with_extensions Option.none exts = []) ∧
    (∀ bp, BuildHelpers.collect_exposed_symbols_top_level Option.none bp = []) ∧
    (∀ excl, BuildHelpers.collect_exposed_symbols_recursive Option.none excl = []) ∧
    (∀ bps, BuildHelpers.collect_exposed_symbols_multiple_paths
      [Option.none, Option.none] bps = []) := by
  refine ⟨fun exts => rfl, fun bp => rfl, fun excl => rfl, fun bps => ?_⟩
  cases bps with
  | nil => rfl
  | cons b bs =>
      cases bs with
      | nil => rfl
      | cons b' rest => rfl

/-- C10: a request-level error in the HTTP probe (timeout, connection failure,
or a non-success status raised by `raise_for_status`) escapes the `try` block
as a `requests.RequestException`, is caught, and makes the existence check
return `False` in both orchestrators — the package is rebuilt, never
skipped and never aborts the batch. -/
theorem C10_theorem (kind : PreparePackages.RequestErrorKind) (package_data : PyDict)
    (package : BuildAndUpload.Package) :
    PreparePackages.check_existing_package_body
        (PreparePackages.ProbeOutcome.requestError kind) package_data = Except.error kind ∧
    PreparePackages.check_existing_package
        (PreparePackages.ProbeOutcome.requestError kind) package_data = false ∧
    BuildAndUpload.check_existing_package
        (PreparePackages.ProbeOutcome.requestError kind) package = false := by
  exact ⟨rfl, rfl, rfl⟩

end Mip
